import Mathlib

set_option maxHeartbeats 1000000
set_option maxRecDepth 4000

/-
  Verification development for the `git-onboard` program (git_onboard.py).

  The program is an interactive CLI that sequences calls to the external
  `git` tool and pattern-matches captured textual output.  We give a shallow
  embedding: Python strings are `List Char`, every external call site is fed
  its captured result (`ProcResult`) from an environment record, and each
  workflow function is translated to a pure function producing the list of
  observable events (tool invocations, prompts, file-system writes,
  directory changes, explanation blocks).  Explanation text is abbreviated
  to a short unique tag per `explain`/`print` block; everything that the
  program branches on is modelled in full.

  Python string primitives are modelled for the `\n`-separated ASCII texts
  the program manipulates: `strip` removes the usual whitespace characters
  from both ends, `splitlines` splits on `\n` (dropping one final newline),
  `x in s` is contiguous-substring containment, `startswith` is prefix
  testing on lists, and `lower` maps ASCII letters to lower case.
-/

abbrev Str := List Char

def str (s : String) : Str := s.toList

def lf : Char := '\n'

def squote : Char := Char.ofNat 39

def isPySpace (c : Char) : Bool :=
  c == ' ' || c == '\t' || c == '\n' || c == '\r' || c == '\x0b' || c == '\x0c'

/-- Python `str.strip()`: drop whitespace from both ends. -/
def pyStrip (s : Str) : Str :=
  ((s.dropWhile isPySpace).reverse.dropWhile isPySpace).reverse

/-- `startsWithB s p` is Python `s.startswith(p)`. -/
def startsWithB : Str → Str → Bool
  | _, [] => true
  | [], _ :: _ => false
  | a :: s, b :: p => a == b && startsWithB s p

/-- `containsB s t` is Python `t in s` (contiguous substring). -/
def containsB : Str → Str → Bool
  | [], t => startsWithB [] t
  | a :: r, t => startsWithB (a :: r) t || containsB r t

/-- Python `str.split(c)` for a single separator character. -/
def splitChar (c : Char) : Str → List Str
  | [] => [[]]
  | a :: rest =>
    match splitChar c rest with
    | [] => [[]]
    | h :: t => if a == c then [] :: h :: t else (a :: h) :: t

/-- Python `str.splitlines()` restricted to `\n` separators: the empty
string yields no lines, and one final newline does not produce an extra
empty line. -/
def pySplitlines (s : Str) : List Str :=
  match s.reverse with
  | [] => []
  | c :: r => if c == lf then splitChar lf r.reverse else splitChar lf s

/-- Python `"\n".join(lines)`. -/
def joinLines : List Str → Str
  | [] => []
  | [l] => l
  | l :: l2 :: rest => l ++ lf :: joinLines (l2 :: rest)

/-- Python `str.lower()` on the ASCII paths the program handles. -/
def pyLower (s : Str) : Str := s.map Char.toLower

/-- `os.path.join` with a single separator (the joined names are only
compared and written, never re-parsed, so one canonical separator
suffices). -/
def pathJoin (a b : Str) : Str := a ++ '/' :: b

/- ==================  run_git  (git_onboard.py lines 33-77) ================== -/

/-- The captured result of one `subprocess.run` invocation. -/
structure ProcResult where
  returncode : Int
  stdout : Str
  stderr : Str
  deriving DecidableEq

def crlfWarning : Str := str "LF will be replaced by CRLF"

/-- The stderr post-processing inside `run_git` (lines 52-62): strip, then
drop every line containing the CRLF warning, join the survivors and strip
again.  An empty stripped stderr is returned as is. -/
def filteredError (stderrRaw : Str) : Str :=
  let e := pyStrip stderrRaw
  if e = [] then e
  else pyStrip (joinLines ((pySplitlines e).filter (fun line => !(containsB line crlfWarning))))

/-- One line printed by `run_git` between the separators: the relayed
stdout, the stderr with the ERROR marker, the stderr relayed as plain
info, or the `(no output)` placeholder (lines 64-73). -/
inductive PrintItem where
  | out (s : Str)
  | err (s : Str)
  | note (s : Str)
  | noOutput
  deriving DecidableEq

/-- What `run_git` returns and prints. -/
structure RunGitOut where
  success : Bool
  output : Str
  error : Str
  printed : List PrintItem
  deriving DecidableEq

/-- `run_git` (lines 33-77), as a pure function of the captured process
result: `output = result.stdout.strip()`, `error` is the CRLF-filtered
strip of `result.stderr`, the printed block mirrors the if/elif chain of
lines 64-73 and success is `returncode == 0`. -/
def run_git (res : ProcResult) : RunGitOut :=
  let output := pyStrip res.stdout
  let error := filteredError res.stderr
  let printed :=
    (if output = [] then [] else [PrintItem.out output]) ++
    (if ¬ error = [] ∧ ¬ res.returncode = 0 then [PrintItem.err error]
     else if ¬ error = [] then [PrintItem.note error] else []) ++
    (if output = [] ∧ error = [] then [PrintItem.noOutput] else [])
  ⟨res.returncode == 0, output, error, printed⟩

/- ==================  substring lemmas  ================== -/

theorem startsWithB_iff : ∀ {s p : Str}, startsWithB s p = true ↔ ∃ v, s = p ++ v := by
  intro s p
  induction p generalizing s with
  | nil => simp [startsWithB]
  | cons b p ih =>
    cases s with
    | nil => simp [startsWithB]
    | cons a s =>
      simp only [startsWithB, Bool.and_eq_true, beq_iff_eq, List.cons_append, List.cons.injEq]
      constructor
      · rintro ⟨rfl, h⟩
        obtain ⟨v, rfl⟩ := ih.mp h
        exact ⟨v, rfl, rfl⟩
      · rintro ⟨v, hab, hs⟩
        exact ⟨hab, ih.mpr ⟨v, hs⟩⟩

theorem containsB_iff : ∀ {s t : Str}, containsB s t = true ↔ ∃ u v, s = u ++ t ++ v := by
  intro s t
  induction s with
  | nil =>
    simp only [containsB]
    rw [startsWithB_iff]
    constructor
    · rintro ⟨v, hv⟩
      exact ⟨[], v, by simpa using hv⟩
    · rintro ⟨u, v, huv⟩
      have h0 : u ++ (t ++ v) = [] := by simpa [List.append_assoc] using huv.symm
      obtain ⟨h1, h2⟩ := List.append_eq_nil.mp h0
      obtain ⟨h3, h4⟩ := List.append_eq_nil.mp h2
      exact ⟨[], by simp [h3]⟩
  | cons a r ih =>
    simp only [containsB, Bool.or_eq_true]
    rw [startsWithB_iff, ih]
    constructor
    · rintro (⟨v, hv⟩ | ⟨u, v, huv⟩)
      · exact ⟨[], v, by simpa using hv⟩
      · exact ⟨a :: u, v, by simp [huv]⟩
    · rintro ⟨u, v, huv⟩
      cases u with
      | nil => exact Or.inl ⟨v, by simpa using huv⟩
      | cons b u =>
        right
        simp only [List.cons_append, List.cons.injEq] at huv
        exact ⟨u, v, huv.2⟩

theorem containsB_of_inner {s x t u v : Str} (hs : s = u ++ x ++ v)
    (hx : containsB x t = true) : containsB s t = true := by
  subst hs
  obtain ⟨u2, v2, rfl⟩ := containsB_iff.mp hx
  exact containsB_iff.mpr ⟨u ++ u2, v2 ++ v, by simp [List.append_assoc]⟩

theorem takeDrop_eq (p : Char → Bool) (s : Str) : s.takeWhile p ++ s.dropWhile p = s := by
  induction s with
  | nil => rfl
  | cons a r ih =>
    cases h : p a <;> simp [List.takeWhile, List.dropWhile, h, ih]

theorem pyStrip_sub (s : Str) : ∃ u v, s = u ++ pyStrip s ++ v := by
  have h3 : s.dropWhile isPySpace =
      pyStrip s ++ ((s.dropWhile isPySpace).reverse.takeWhile isPySpace).reverse := by
    have h4 : ((s.dropWhile isPySpace).reverse.takeWhile isPySpace ++
        (s.dropWhile isPySpace).reverse.dropWhile isPySpace).reverse =
        (s.dropWhile isPySpace).reverse.reverse := by
      rw [takeDrop_eq]
    rw [List.reverse_append, List.reverse_reverse] at h4
    exact h4.symm
  refine ⟨s.takeWhile isPySpace,
    ((s.dropWhile isPySpace).reverse.takeWhile isPySpace).reverse, ?_⟩
  conv_lhs => rw [← takeDrop_eq isPySpace s]
  rw [List.append_assoc, ← h3]

theorem containsB_of_strip {s t : Str} (h : containsB (pyStrip s) t = true) :
    containsB s t = true := by
  obtain ⟨u, v, hs⟩ := pyStrip_sub s
  exact containsB_of_inner hs h

theorem dropWhile_cons_eq (p : Char → Bool) (a : Char) (l : Str) :
    (a :: l).dropWhile p = if p a then l.dropWhile p else a :: l := by
  cases h : p a <;> simp [List.dropWhile, h]

theorem containsB_dropWhile {p : Char → Bool} {a : Char} {t s : Str} (ha : p a = false)
    (h : containsB s (a :: t) = true) : containsB (s.dropWhile p) (a :: t) = true := by
  induction s with
  | nil => simp [containsB, startsWithB] at h
  | cons b r ih =>
    simp only [containsB, Bool.or_eq_true] at h
    rcases h with h | h
    · have hb : b = a := by
        simp only [startsWithB, Bool.and_eq_true, beq_iff_eq] at h
        exact h.1
      have hd : (b :: r).dropWhile p = b :: r := by
        rw [dropWhile_cons_eq, hb, ha]
        simp
      rw [hd]
      simp only [containsB, Bool.or_eq_true]
      exact Or.inl h
    · cases hp : p b
      · have hd : (b :: r).dropWhile p = b :: r := by
          rw [dropWhile_cons_eq, hp]
          simp
        rw [hd]
        simp only [containsB, Bool.or_eq_true]
        exact Or.inr h
      · have hd : (b :: r).dropWhile p = r.dropWhile p := by
          rw [dropWhile_cons_eq, hp]
          simp
        rw [hd]
        exact ih h

theorem containsB_rev_of {s t : Str} (h : containsB s t = true) :
    containsB s.reverse t.reverse = true := by
  obtain ⟨u, v, rfl⟩ := containsB_iff.mp h
  exact containsB_iff.mpr ⟨v.reverse, u.reverse, by simp [List.reverse_append, List.append_assoc]⟩

theorem containsB_strip_of_contains {s t : Str} (ht : t ≠ [])
    (hws : ∀ c ∈ t, isPySpace c = false) (h : containsB s t = true) :
    containsB (pyStrip s) t = true := by
  cases t with
  | nil => exact absurd rfl ht
  | cons a t' =>
    have ha : isPySpace a = false := hws a (by simp)
    have h1 : containsB (s.dropWhile isPySpace) (a :: t') = true := containsB_dropWhile ha h
    have h2 := containsB_rev_of h1
    cases hrev : (a :: t').reverse with
    | nil => simp at hrev
    | cons b r =>
      have hb : isPySpace b = false := by
        have hbmem : b ∈ (a :: t').reverse := by rw [hrev]; simp
        exact hws b (List.mem_reverse.mp hbmem)
      rw [hrev] at h2
      have h3 := containsB_dropWhile hb h2
      have h4 := containsB_rev_of h3
      rw [← hrev] at h4
      simpa [pyStrip, List.reverse_reverse] using h4

theorem startsWith_stops {c : Char} : ∀ {l : Str} {t m : Str}, c ∉ t →
    (∃ v, l ++ c :: m = t ++ v) → ∃ w, l = t ++ w := by
  intro l
  induction l with
  | nil =>
    intro t m hc h
    obtain ⟨v, hv⟩ := h
    cases t with
    | nil => exact ⟨[], rfl⟩
    | cons a t' =>
      simp only [List.nil_append, List.cons_append, List.cons.injEq] at hv
      obtain ⟨h1, -⟩ := hv
      exact absurd (h1 ▸ List.mem_cons_self a t') hc
  | cons b l' ih =>
    intro t m hc h
    obtain ⟨v, hv⟩ := h
    cases t with
    | nil => exact ⟨b :: l', rfl⟩
    | cons a t' =>
      simp only [List.cons_append, List.cons.injEq] at hv
      obtain ⟨h1, hrest⟩ := hv
      have hc' : c ∉ t' := fun hmem => hc (List.mem_cons_of_mem _ hmem)
      obtain ⟨w, hw⟩ := ih hc' ⟨v, hrest⟩
      exact ⟨w, by simp [h1, hw]⟩

theorem containsB_split {c : Char} : ∀ {l t m : Str}, c ∉ t →
    containsB (l ++ c :: m) t = true → containsB l t = true ∨ containsB m t = true := by
  intro l
  induction l with
  | nil =>
    intro t m hc h
    simp only [List.nil_append, containsB, Bool.or_eq_true] at h
    rcases h with h | h
    · rw [startsWithB_iff] at h
      obtain ⟨v, hv⟩ := h
      cases t with
      | nil => exact Or.inl (by simp [containsB, startsWithB])
      | cons a t' =>
        simp only [List.cons_append, List.cons.injEq] at hv
        obtain ⟨h1, -⟩ := hv
        exact absurd (h1 ▸ List.mem_cons_self a t') hc
    · exact Or.inr h
  | cons b l' ih =>
    intro t m hc h
    simp only [List.cons_append, containsB, Bool.or_eq_true] at h
    rcases h with h | h
    · rw [startsWithB_iff] at h
      obtain ⟨v, hv⟩ := h
      cases t with
      | nil => exact Or.inl (by simp [containsB, startsWithB])
      | cons a t' =>
        simp only [List.cons_append, List.cons.injEq] at hv
        obtain ⟨h1, hrest⟩ := hv
        have hc' : c ∉ t' := fun hmem => hc (List.mem_cons_of_mem _ hmem)
        obtain ⟨w, hw⟩ := startsWith_stops hc' ⟨v, hrest⟩
        exact Or.inl (containsB_iff.mpr ⟨[], w, by simp [h1, hw]⟩)
    · rcases ih hc h with h1 | h1
      · refine Or.inl ?_
        simp only [containsB, Bool.or_eq_true]
        exact Or.inr h1
      · exact Or.inr h1

theorem containsB_joinLines {t : Str} (hc : lf ∉ t) (ht : t ≠ []) :
    ∀ ls : List Str, containsB (joinLines ls) t = true →
      ∃ l ∈ ls, containsB l t = true := by
  intro ls
  induction ls with
  | nil =>
    intro h
    simp only [joinLines, containsB] at h
    rw [startsWithB_iff] at h
    obtain ⟨v, hv⟩ := h
    have h0 : t ++ v = [] := hv.symm
    obtain ⟨h1, -⟩ := List.append_eq_nil.mp h0
    exact absurd h1 ht
  | cons l ls ih =>
    intro h
    cases ls with
    | nil => exact ⟨l, by simp, by simpa [joinLines] using h⟩
    | cons l2 rest =>
      rw [show joinLines (l :: l2 :: rest) = l ++ lf :: joinLines (l2 :: rest) from rfl] at h
      rcases containsB_split hc h with h1 | h1
      · exact ⟨l, by simp, h1⟩
      · obtain ⟨x, hx, hcx⟩ := ih h1
        exact ⟨x, List.mem_cons_of_mem _ hx, hcx⟩

theorem splitChar_shape (c : Char) : ∀ s : Str, ∃ h t, splitChar c s = h :: t ∧
    (∃ w, s = h ++ w) ∧ ∀ x ∈ t, ∃ u v, s = u ++ x ++ v := by
  intro s
  induction s with
  | nil => exact ⟨[], [], rfl, ⟨[], rfl⟩, by simp⟩
  | cons a rest ih =>
    obtain ⟨h, t, heq, ⟨w, hw⟩, htail⟩ := ih
    cases hac : a == c
    · refine ⟨a :: h, t, ?_, ⟨w, by simp [hw]⟩, ?_⟩
      · simp [splitChar, heq, hac]
      · intro x hx
        obtain ⟨u, v, huv⟩ := htail x hx
        exact ⟨a :: u, v, by simp [huv]⟩
    · refine ⟨[], h :: t, ?_, ⟨a :: rest, rfl⟩, ?_⟩
      · simp [splitChar, heq, hac]
      · intro x hx
        rcases List.mem_cons.mp hx with rfl | hx2
        · exact ⟨[a], w, by simp [hw]⟩
        · obtain ⟨u, v, huv⟩ := htail x hx2
          exact ⟨a :: u, v, by simp [huv]⟩

theorem mem_splitChar_sub {c : Char} {s x : Str} (hx : x ∈ splitChar c s) :
    ∃ u v, s = u ++ x ++ v := by
  obtain ⟨h, t, heq, ⟨w, hw⟩, htail⟩ := splitChar_shape c s
  rw [heq] at hx
  rcases List.mem_cons.mp hx with rfl | hx2
  · exact ⟨[], w, by simpa using hw⟩
  · exact htail x hx2

theorem mem_pySplitlines_sub {s x : Str} (hx : x ∈ pySplitlines s) :
    ∃ u v, s = u ++ x ++ v := by
  unfold pySplitlines at hx
  split at hx
  · simp at hx
  · rename_i c r hs
    have hsr : s = r.reverse ++ [c] := by
      have h0 := congrArg List.reverse hs
      simpa using h0
    split at hx
    · obtain ⟨u, v, huv⟩ := mem_splitChar_sub hx
      exact ⟨u, v ++ [c], by simp [hsr, huv, List.append_assoc]⟩
    · exact mem_splitChar_sub hx

theorem filteredError_no_crlf (s : Str) :
    containsB (filteredError s) crlfWarning = false := by
  cases hb : containsB (filteredError s) crlfWarning
  · rfl
  · exfalso
    unfold filteredError at hb
    by_cases he : pyStrip s = []
    · rw [if_pos he] at hb
      rw [he] at hb
      exact absurd hb (by decide)
    · rw [if_neg he] at hb
      have h1 : containsB (joinLines ((pySplitlines (pyStrip s)).filter
          (fun line => !(containsB line crlfWarning)))) crlfWarning = true :=
        containsB_of_strip hb
      obtain ⟨l, hl, hcl⟩ := containsB_joinLines (by decide) (by decide) _ h1
      have h2 := List.mem_filter.mp hl
      rw [hcl] at h2
      exact absurd h2.2 (by decide)

/- ==================  claims about run_git (C5, C9)  ================== -/

/-- The concrete process result refuting claim C5: the captured stderr is
exactly one CRLF warning line. -/
def c5Res : ProcResult := ⟨0, [], str "LF will be replaced by CRLF"⟩

/-- Claim C5, counterexample: at a captured stderr consisting of one CRLF
warning line, the stderr returned by `run_git` is NOT the stripped captured
stderr (the filter empties it), and the non-empty captured output is not
printed (only the `(no output)` placeholder is). -/
theorem c5_counterexample :
    (run_git c5Res).error ≠ pyStrip c5Res.stderr ∧
    pyStrip c5Res.stderr ≠ [] ∧
    (run_git c5Res).printed = [PrintItem.noOutput] := by decide

/-- Claim C5 as amended: `run_git` returns the stripped captured stdout
unchanged, returns the captured stderr stripped and with CRLF-warning
lines filtered out, prints the relayed stdout whenever it is non-empty,
prints the relayed stderr whenever it is non-empty (with the ERROR marker
exactly when the return code is nonzero), and prints the placeholder when
both are empty. -/
theorem c5_relay_amended (res : ProcResult) :
    (run_git res).output = pyStrip res.stdout ∧
    (run_git res).error = filteredError res.stderr ∧
    (¬ (run_git res).output = [] →
        PrintItem.out (run_git res).output ∈ (run_git res).printed) ∧
    (¬ (run_git res).error = [] → ¬ res.returncode = 0 →
        PrintItem.err (run_git res).error ∈ (run_git res).printed) ∧
    (¬ (run_git res).error = [] → res.returncode = 0 →
        PrintItem.note (run_git res).error ∈ (run_git res).printed) ∧
    ((run_git res).output = [] → (run_git res).error = [] →
        (run_git res).printed = [PrintItem.noOutput]) := by
  refine ⟨rfl, rfl, ?_, ?_, ?_, ?_⟩
  · intro h1
    show PrintItem.out (pyStrip res.stdout) ∈ (run_git res).printed
    simp only [run_git] at h1 ⊢
    simp [h1]
  · intro h1 h2
    show PrintItem.err (filteredError res.stderr) ∈ (run_git res).printed
    simp only [run_git] at h1 ⊢
    simp [h1, h2]
  · intro h1 h2
    show PrintItem.note (filteredError res.stderr) ∈ (run_git res).printed
    simp only [run_git] at h1 ⊢
    simp [h1, h2]
  · intro h1 h2
    simp only [run_git] at h1 h2 ⊢
    simp [h1, h2]

/-- Witness for the amended C5 at a concrete failing command with non-empty
stdout and stderr. -/
def c5wRes : ProcResult := ⟨1, str " a ", str "b"⟩

theorem c5_relay_amended_witness :
    ¬ (run_git c5wRes).output = [] ∧
    PrintItem.out (run_git c5wRes).output ∈ (run_git c5wRes).printed ∧
    PrintItem.err (run_git c5wRes).error ∈ (run_git c5wRes).printed :=
  ⟨by decide, (c5_relay_amended c5wRes).2.2.1 (by decide),
    (c5_relay_amended c5wRes).2.2.2.1 (by decide) (by decide)⟩

/-- Claim C9: the stderr returned by `run_git` has no line containing the
CRLF warning, and the returned success flag is true exactly when the
external command's return code is 0. -/
theorem c9_crlf_filter_and_success (res : ProcResult) :
    ((run_git res).success = true ↔ res.returncode = 0) ∧
    ∀ line ∈ pySplitlines (run_git res).error, containsB line crlfWarning = false := by
  constructor
  · show ((res.returncode == 0) = true ↔ res.returncode = 0)
    exact beq_iff_eq
  · intro line hline
    cases hb : containsB line crlfWarning
    · rfl
    · exfalso
      have herr : (run_git res).error = filteredError res.stderr := rfl
      rw [herr] at hline
      obtain ⟨u, v, huv⟩ := mem_pySplitlines_sub hline
      have h2 : containsB (filteredError res.stderr) crlfWarning = true :=
        containsB_of_inner huv hb
      rw [filteredError_no_crlf] at h2
      exact Bool.false_ne_true h2

/-- Witness for C9 at a concrete stderr mixing a real error line with a
CRLF warning line. -/
def c9Res : ProcResult := ⟨0, str "ok", str "boom\nwarning: LF will be replaced by CRLF in a.txt"⟩

theorem c9_crlf_filter_and_success_witness :
    (str "boom") ∈ pySplitlines (run_git c9Res).error ∧
    containsB (str "boom") crlfWarning = false :=
  ⟨by decide, (c9_crlf_filter_and_success c9Res).2 (str "boom") (by decide)⟩

/- ==================  CONFLICT detection is strip-invariant  ================== -/

def conflictStr : Str := str "CONFLICT"

theorem containsB_pyStrip_conflict (s : Str) :
    containsB (pyStrip s) conflictStr = containsB s conflictStr := by
  cases h : containsB s conflictStr
  · cases h2 : containsB (pyStrip s) conflictStr
    · rfl
    · rw [containsB_of_strip h2] at h
      exact absurd h (by decide)
  · exact containsB_strip_of_contains (by decide) (by decide) h

/- ==================  observable events of the workflows  ================== -/

/-- One observable step of a workflow.  `git` is a `run_git` call (it also
prints its output block, which is a pure function of `res`, see `run_git`);
`gitCapture` is a silent `subprocess.run(["git", ...], capture_output=True)`;
`info` is an `explain`/`print` block abbreviated to a unique tag;
`waitEnter` is an `input("Press Enter ...")` pause; `promptStr`,
`promptYN` and `promptNum` are the three kinds of user prompts together
with the response the environment supplies; `writeFile`, `makeDirs` and
`chdir` are the direct file-system/process effects (`open(...,"w")`,
`os.makedirs`, `os.chdir`).  Screen clearing is presentation-only and is
not recorded. -/
inductive Event where
  | git (args : List Str) (res : ProcResult)
  | gitCapture (args : List Str) (res : ProcResult)
  | info (tag : Str)
  | waitEnter
  | promptStr (tag : Str) (value : Str)
  | promptYN (tag : Str) (answer : Bool)
  | promptNum (tag : Str) (choice : Nat)
  | writeFile (path : Str)
  | makeDirs (path : Str)
  | chdir (path : Str)
  deriving DecidableEq

/-- The arguments of an external git invocation, if the event is one. -/
def gitCallArgs : Event → Option (List Str)
  | Event.git a _ => some a
  | Event.gitCapture a _ => some a
  | _ => none

/-- The sequence of external git invocations (both relayed and captured)
performed by a trace, in order. -/
def gitCalls (t : List Event) : List (List Str) := t.filterMap gitCallArgs

def isGitCall : Event → Bool
  | Event.git _ _ => true
  | Event.gitCapture _ _ => true
  | _ => false

/-- Direct file-system modification (a file write or directory creation)
not going through the external tool. -/
def modifiesFsDirectly : Event → Bool
  | Event.writeFile _ => true
  | Event.makeDirs _ => true
  | _ => false

def isChdir : Event → Bool
  | Event.chdir _ => true
  | _ => false

/-- The working directory after replaying the `chdir` events of a trace,
starting from `start`. -/
def finalCwd (start : Str) : List Event → Str
  | [] => start
  | Event.chdir p :: r => finalCwd p r
  | _ :: r => finalCwd start r

/-- The last `info` block of a trace (the explanation the user is left
with). -/
def lastInfo : List Event → Option Str
  | [] => none
  | Event.info s :: r =>
    match lastInfo r with
    | none => some s
    | some x => some x
  | _ :: r => lastInfo r

/- ==========  handle_merge_conflict  (git_onboard.py lines 1110-1223) ========== -/

/-- Environment of one `handle_merge_conflict` run: the captured results of
its external calls in source order, and the user's yes/no answers. -/
structure ConflictEnv where
  statusShort1 : ProcResult
  statusShort2 : ProcResult
  porcelainRes : ProcResult
  stageConfirm : Bool
  addRes : ProcResult
  commitRes : ProcResult
  deleteConfirm : Bool
  deleteRes : ProcResult
  cancelConfirm : Bool
  abortRes : ProcResult
  deriving DecidableEq

/-- The `has_conflicts` re-check of lines 1174-1181: some line of the
stripped porcelain stdout starts with `UU` or `AA`. -/
def recheckHasConflicts (porcelainStdout : Str) : Bool :=
  (pySplitlines (pyStrip porcelainStdout)).any
    (fun line => startsWithB line (str "UU") || startsWithB line (str "AA"))

/-- The commit message of line 1200:
`f"Merge branch '{merge_branch}' into {current_branch}"`. -/
def mergeCommitMsg (mb cb : Str) : Str :=
  str "Merge branch " ++ squote :: mb ++ squote :: str " into " ++ cb

/-- `handle_merge_conflict(merge_branch, current_branch)` (lines
1110-1223) as an event trace: intro explanation, show the conflicted files
(`git status --short`), fixing instructions, wait for the user, re-display
the status (`git status --short` again), silently capture
`git status --porcelain`, then either stop (conflicts remain) or offer to
stage and commit, with the optional branch deletion after a successful
commit, or the optional `git merge --abort` if staging is declined. -/
def handle_merge_conflict (mb cb : Str) (env : ConflictEnv) : List Event :=
  [Event.info (str "merge_conflict_intro"),
   Event.git [str "status", str "--short"] env.statusShort1,
   Event.info (str "conflict_fix_instructions"),
   Event.waitEnter,
   Event.info (str "conflict_verify"),
   Event.git [str "status", str "--short"] env.statusShort2,
   Event.gitCapture [str "status", str "--porcelain"] env.porcelainRes] ++
  (if recheckHasConflicts env.porcelainRes.stdout then
     [Event.info (str "conflict_still_unresolved")]
   else
     Event.info (str "resolved_next") ::
     (if env.stageConfirm then
        Event.promptYN (str "stage_and_complete") true ::
        Event.git [str "add", str "."] env.addRes ::
        Event.git [str "commit", str "-m", mergeCommitMsg mb cb] env.commitRes ::
        (if env.commitRes.returncode == 0 then
           Event.info (str "conflict_resolved") ::
           (if env.deleteConfirm then
              [Event.promptYN (str "delete_branch") true,
               Event.git [str "branch", str "-d", mb] env.deleteRes,
               Event.info (str "branch_deleted")]
            else [Event.promptYN (str "delete_branch") false])
         else [])
      else
        Event.promptYN (str "stage_and_complete") false ::
        Event.info (str "merge_left_in_progress") ::
        (if env.cancelConfirm then
           [Event.promptYN (str "cancel_merge") true,
            Event.git [str "merge", str "--abort"] env.abortRes,
            Event.info (str "merge_cancelled")]
         else [Event.promptYN (str "cancel_merge") false])))

/- ==================  claims C1, C2  ================== -/

/-- Modelled from the spec: the walk claim C1 describes — show conflicted
files (`git status --short`), wait, re-check (`git status --porcelain`);
stop if conflicts remain, else on confirmation `git add .` then the merge
commit, or on decline-and-cancel `git merge --abort`, and nothing else. -/
def c1ClaimedCalls (mb cb : Str) (env : ConflictEnv) : List (List Str) :=
  [str "status", str "--short"] ::
  [str "status", str "--porcelain"] ::
  (if recheckHasConflicts env.porcelainRes.stdout then []
   else if env.stageConfirm then
     [[str "add", str "."], [str "commit", str "-m", mergeCommitMsg mb cb]]
   else if env.cancelConfirm then [[str "merge", str "--abort"]] else [])

/-- A run in which the re-check is clean, the user confirms staging, the
commit succeeds and the user confirms the branch deletion. -/
def c1Env : ConflictEnv :=
  ⟨⟨0, str "UU a.txt", []⟩, ⟨0, str "M a.txt", []⟩, ⟨0, str "M a.txt", []⟩,
   true, ⟨0, [], []⟩, ⟨0, str "done", []⟩, true, ⟨0, [], []⟩, false, ⟨0, [], []⟩⟩

/-- Claim C1, counterexample: the conflict walkthrough performs a second
`git status --short` between the wait and the porcelain re-check, and a
`git branch -d` after a confirmed successful merge commit, so its
invocation sequence differs from the claimed walk. -/
theorem c1_counterexample :
    gitCalls (handle_merge_conflict (str "feature") (str "main") c1Env) ≠
      c1ClaimedCalls (str "feature") (str "main") c1Env := by decide

/-- Claim C1 as amended: the external-tool invocations of
`handle_merge_conflict` are exactly `git status --short` (to show the
conflicted files), `git status --short` again (re-display after the user's
manual resolution), `git status --porcelain` (the re-check); then nothing
if conflicts remain; else, when the user confirms, `git add .` followed by
the merge commit, followed by `git branch -d <merge_branch>` exactly when
the commit succeeded and the user confirms the deletion; when the user
declines and confirms cancellation, `git merge --abort`; and no other
order is possible. -/
theorem c1_conflict_walk_amended (mb cb : Str) (env : ConflictEnv) :
    gitCalls (handle_merge_conflict mb cb env) =
      [str "status", str "--short"] ::
      [str "status", str "--short"] ::
      [str "status", str "--porcelain"] ::
      (if recheckHasConflicts env.porcelainRes.stdout then []
       else if env.stageConfirm then
         [str "add", str "."] ::
         [str "commit", str "-m", mergeCommitMsg mb cb] ::
         (if env.commitRes.returncode == 0 then
            (if env.deleteConfirm then [[str "branch", str "-d", mb]] else [])
          else [])
       else if env.cancelConfirm then [[str "merge", str "--abort"]] else []) := by
  unfold handle_merge_conflict
  cases hrc : recheckHasConflicts env.porcelainRes.stdout <;>
  cases hsc : env.stageConfirm <;>
  cases hdc : env.deleteConfirm <;>
  cases hcc : env.cancelConfirm <;>
  cases hcm : env.commitRes.returncode == 0 <;>
  simp [gitCalls, gitCallArgs, List.filterMap_append, List.filterMap_cons, hrc, hsc, hdc, hcc, hcm]

/-- A porcelain re-check whose captured stdout is ` UU f.txt` (a leading
space on the first line): no line of the captured output starts with `UU`
or `AA`, but the stripped output the code examines does. -/
def c2Env : ConflictEnv :=
  ⟨⟨0, str "UU f.txt", []⟩, ⟨0, str " UU f.txt", []⟩, ⟨1, str " UU f.txt", []⟩,
   true, ⟨0, [], []⟩, ⟨0, [], []⟩, false, ⟨0, [], []⟩, false, ⟨0, [], []⟩⟩

/-- Claim C2, counterexample: at a captured porcelain output ` UU f.txt`,
no line of the captured output has the prefix `UU` or `AA`, yet the
workflow does not proceed to the staging step (it strips the output first,
turning the line into `UU f.txt`). -/
theorem c2_counterexample :
    (∀ line ∈ pySplitlines c2Env.porcelainRes.stdout,
       startsWithB line (str "UU") = false ∧ startsWithB line (str "AA") = false) ∧
    Event.info (str "resolved_next") ∉
      handle_merge_conflict (str "feature") (str "main") c2Env ∧
    [str "add", str "."] ∉
      gitCalls (handle_merge_conflict (str "feature") (str "main") c2Env) := by decide

/-- Claim C2 as amended: a status line is classified as an unresolved
conflict iff it starts with `UU` or `AA`, the lines examined being those of
the STRIPPED captured `git status --porcelain` output; the workflow
reaches the staging step exactly when no such line has either prefix, and
when some line does it returns after the three status invocations with no
staging or committing. -/
theorem c2_recheck_classification_amended (mb cb : Str) (env : ConflictEnv) :
    (Event.info (str "resolved_next") ∈ handle_merge_conflict mb cb env ↔
       ∀ line ∈ pySplitlines (pyStrip env.porcelainRes.stdout),
         startsWithB line (str "UU") = false ∧ startsWithB line (str "AA") = false) ∧
    (recheckHasConflicts env.porcelainRes.stdout = true →
       gitCalls (handle_merge_conflict mb cb env) =
         [[str "status", str "--short"], [str "status", str "--short"],
          [str "status", str "--porcelain"]]) := by
  have hlines : recheckHasConflicts env.porcelainRes.stdout = false ↔
      ∀ line ∈ pySplitlines (pyStrip env.porcelainRes.stdout),
        startsWithB line (str "UU") = false ∧ startsWithB line (str "AA") = false := by
    unfold recheckHasConflicts
    constructor
    · intro h line hl
      have h2 : ¬ (pySplitlines (pyStrip env.porcelainRes.stdout)).any
          (fun line => startsWithB line (str "UU") || startsWithB line (str "AA")) = true := by
        rw [h]
        exact Bool.false_ne_true
      rw [List.any_eq_true] at h2
      push_neg at h2
      have h3 := h2 line hl
      constructor
      · cases hUU : startsWithB line (str "UU")
        · rfl
        · exact absurd (by simp [hUU]) h3
      · cases hAA : startsWithB line (str "AA")
        · rfl
        · exact absurd (by simp [hAA]) h3
    · intro h
      cases hany : (pySplitlines (pyStrip env.porcelainRes.stdout)).any
          (fun line => startsWithB line (str "UU") || startsWithB line (str "AA"))
      · rfl
      · exfalso
        rw [List.any_eq_true] at hany
        obtain ⟨line, hl, hp⟩ := hany
        obtain ⟨h1, h2⟩ := h line hl
        rw [Bool.or_eq_true] at hp
        rcases hp with hp | hp
        · rw [h1] at hp; exact Bool.false_ne_true hp
        · rw [h2] at hp; exact Bool.false_ne_true hp
  have hmem : Event.info (str "resolved_next") ∈ handle_merge_conflict mb cb env ↔
      recheckHasConflicts env.porcelainRes.stdout = false := by
    unfold handle_merge_conflict
    cases hrc : recheckHasConflicts env.porcelainRes.stdout <;>
    cases hsc : env.stageConfirm <;>
    cases hdc : env.deleteConfirm <;>
    cases hcc : env.cancelConfirm <;>
    cases hcm : env.commitRes.returncode == 0 <;>
      simp [hrc, hsc, hdc, hcc, hcm] <;> decide
  constructor
  · rw [hmem, hlines]
  · intro h
    unfold handle_merge_conflict
    rw [h]
    simp [gitCalls, gitCallArgs, List.filterMap_append, List.filterMap_cons]

/-- Witness for the amended C2 at a re-check that still reports a `UU`
line: the walkthrough stops after the three status invocations. -/
def c2wEnv : ConflictEnv :=
  ⟨⟨0, str "UU f.txt", []⟩, ⟨0, str "UU f.txt", []⟩, ⟨1, str "UU f.txt", []⟩,
   true, ⟨0, [], []⟩, ⟨0, [], []⟩, false, ⟨0, [], []⟩, false, ⟨0, [], []⟩⟩

theorem c2_recheck_classification_amended_witness :
    recheckHasConflicts c2wEnv.porcelainRes.stdout = true ∧
    gitCalls (handle_merge_conflict (str "feature") (str "main") c2wEnv) =
      [[str "status", str "--short"], [str "status", str "--short"],
       [str "status", str "--porcelain"]] :=
  ⟨by decide,
   (c2_recheck_classification_amended (str "feature") (str "main") c2wEnv).2 (by decide)⟩

/- ==========  the merge attempt in workflow_merge (lines 1082-1107) ========== -/

/-- Environment of the tail of `workflow_merge` from the `git merge`
invocation on: the captured merge result, the optional branch deletion
after a clean merge, and the conflict-walkthrough environment. -/
structure MergeTailEnv where
  mergeRes : ProcResult
  deleteConfirm : Bool
  deleteRes : ProcResult
  conflict : ConflictEnv
  deriving DecidableEq

/-- Lines 1075-1107 of `workflow_merge`: explain, run `git merge
<merge_branch>`; on success explain and optionally `git branch -d`; else
enter `handle_merge_conflict` iff `"CONFLICT"` occurs in the output or
error strings returned by `run_git`; otherwise print the generic
merge-failure explanation and stop. -/
def mergeAttempt (mb cb : Str) (env : MergeTailEnv) : List Event :=
  Event.info (str "merge_about_to_happen") ::
  Event.git [str "merge", mb] env.mergeRes ::
  (if (run_git env.mergeRes).success then
     Event.info (str "merge_complete") ::
     (if env.deleteConfirm then
        [Event.promptYN (str "delete_merged_branch") true,
         Event.git [str "branch", str "-d", mb] env.deleteRes,
         Event.info (str "merged_branch_deleted")]
      else [Event.promptYN (str "delete_merged_branch") false])
   else if containsB (run_git env.mergeRes).output conflictStr ||
           containsB (run_git env.mergeRes).error conflictStr then
     handle_merge_conflict mb cb env.conflict
   else [Event.info (str "merge_failed_generic")])

theorem intro_mem_handle (mb cb : Str) (env : ConflictEnv) :
    Event.info (str "merge_conflict_intro") ∈ handle_merge_conflict mb cb env := by
  unfold handle_merge_conflict
  simp

/- ==================  claim C3  ================== -/

/-- A failed merge whose captured stderr is the single line
`CONFLICT: LF will be replaced by CRLF in f` — it contains `CONFLICT`,
but `run_git` filters the whole line away. -/
def c3Env : MergeTailEnv :=
  ⟨⟨1, [], str "CONFLICT: LF will be replaced by CRLF in f"⟩, false, ⟨0, [], []⟩,
   ⟨⟨0, [], []⟩, ⟨0, [], []⟩, ⟨0, [], []⟩, false, ⟨0, [], []⟩, ⟨0, [], []⟩,
    false, ⟨0, [], []⟩, false, ⟨0, [], []⟩⟩⟩

/-- Claim C3, counterexample: the merge fails and `CONFLICT` occurs in the
captured stderr, yet the conflict walkthrough is NOT entered (the CRLF
filter removed the line): the workflow prints the generic explanation and
performs no further tool invocation. -/
theorem c3_counterexample :
    c3Env.mergeRes.returncode ≠ 0 ∧
    containsB c3Env.mergeRes.stderr conflictStr = true ∧
    Event.info (str "merge_conflict_intro") ∉ mergeAttempt (str "f") (str "m") c3Env ∧
    lastInfo (mergeAttempt (str "f") (str "m") c3Env) = some (str "merge_failed_generic") ∧
    gitCalls (mergeAttempt (str "f") (str "m") c3Env) = [[str "merge", str "f"]] := by decide

/-- Claim C3 as amended: after a failed `git merge`, the conflict
walkthrough is entered iff `CONFLICT` occurs in the captured stdout or in
the CRLF-filtered, stripped captured stderr of the merge command (the
stdout test is insensitive to the stripping `run_git` performs); otherwise
the generic merge-failure explanation is printed and the merge command is
the only external-tool invocation of the attempt. -/
theorem c3_conflict_detection_amended (mb cb : Str) (env : MergeTailEnv)
    (h : ¬ env.mergeRes.returncode = 0) :
    (Event.info (str "merge_conflict_intro") ∈ mergeAttempt mb cb env ↔
       (containsB env.mergeRes.stdout conflictStr = true ∨
        containsB (filteredError env.mergeRes.stderr) conflictStr = true)) ∧
    ((containsB env.mergeRes.stdout conflictStr = false ∧
      containsB (filteredError env.mergeRes.stderr) conflictStr = false) →
        gitCalls (mergeAttempt mb cb env) = [[str "merge", mb]]) := by
  have hsucc : (run_git env.mergeRes).success = false := by
    show (env.mergeRes.returncode == 0) = false
    simpa using h
  have hout : containsB (run_git env.mergeRes).output conflictStr =
      containsB env.mergeRes.stdout conflictStr := by
    show containsB (pyStrip env.mergeRes.stdout) conflictStr = _
    exact containsB_pyStrip_conflict env.mergeRes.stdout
  have herr : (run_git env.mergeRes).error = filteredError env.mergeRes.stderr := rfl
  constructor
  · unfold mergeAttempt
    rw [hsucc, hout, herr]
    cases h1 : containsB env.mergeRes.stdout conflictStr <;>
    cases h2 : containsB (filteredError env.mergeRes.stderr) conflictStr <;>
      simp
    · decide
    · exact Or.inr (intro_mem_handle mb cb env.conflict)
    · exact Or.inr (intro_mem_handle mb cb env.conflict)
    · exact Or.inr (intro_mem_handle mb cb env.conflict)
  · intro ⟨h1, h2⟩
    unfold mergeAttempt
    rw [hsucc, hout, herr, h1, h2]
    simp [gitCalls, gitCallArgs]

/-- Witness for the amended C3 at a genuinely conflicting merge. -/
def c3wEnv : MergeTailEnv :=
  ⟨⟨1, str "CONFLICT (content): Merge conflict in a.txt", []⟩, false, ⟨0, [], []⟩,
   ⟨⟨0, str "UU a.txt", []⟩, ⟨0, [], []⟩, ⟨0, [], []⟩, false, ⟨0, [], []⟩, ⟨0, [], []⟩,
    false, ⟨0, [], []⟩, false, ⟨0, [], []⟩⟩⟩

theorem c3_conflict_detection_amended_witness :
    Event.info (str "merge_conflict_intro") ∈ mergeAttempt (str "f") (str "m") c3wEnv :=
  ((c3_conflict_detection_amended (str "f") (str "m") c3wEnv (by decide)).1).mpr
    (Or.inl (by decide))

/- ==========  the push attempt in workflow_push (lines 551-630) ========== -/

/-- The elif chain of lines 584-630: explanation chosen for a failed push,
as a function of the stderr string `run_git` returned. -/
def pushFailureTag (e : Str) : Str :=
  if containsB e (str "src refspec") then str "push_nothing_to_push"
  else if containsB e (str "rejected") then str "push_rejected"
  else if containsB e (str "Authentication") || containsB e (str "fatal: could not read") then
    str "push_auth"
  else str "push_generic_failure"

/-- Lines 551-630 of `workflow_push` from the branch query on: capture
`git branch --show-current`, default the branch to `main` when it is
empty, run `git push -u origin <branch>`, then print the success
explanation or the failure explanation chosen by `pushFailureTag`. -/
def pushAttempt (branchRes pushRes : ProcResult) : List Event :=
  Event.gitCapture [str "branch", str "--show-current"] branchRes ::
  Event.info (str "push_uploading") ::
  Event.git [str "push", str "-u", str "origin",
    (if pyStrip branchRes.stdout = [] then str "main" else pyStrip branchRes.stdout)] pushRes ::
  (if (run_git pushRes).success then [Event.info (str "push_success")]
   else [Event.info (pushFailureTag (run_git pushRes).error)])

/- ==================  claim C4  ================== -/

/-- Modelled from the claim C4 wording: the same fixed-order decision
tree, but read over the RAW captured stderr of the push command. -/
def c4ClaimedTag (res : ProcResult) : Str :=
  if containsB res.stderr (str "src refspec") then str "push_nothing_to_push"
  else if containsB res.stderr (str "rejected") then str "push_rejected"
  else if containsB res.stderr (str "Authentication") ||
          containsB res.stderr (str "fatal: could not read") then str "push_auth"
  else str "push_generic_failure"

def c4BranchRes : ProcResult := ⟨0, str "main", []⟩

/-- A failed push whose captured stderr is the single line
`error: src refspec main; LF will be replaced by CRLF`: it contains
`src refspec`, but the CRLF filter inside `run_git` removes the line. -/
def c4PushRes : ProcResult :=
  ⟨1, [], str "error: src refspec main; LF will be replaced by CRLF"⟩

/-- Claim C4, counterexample: the captured stderr contains `src refspec`,
so the claim picks the "nothing to push" explanation, but the code matches
against the CRLF-filtered relayed stderr (which is empty here) and prints
the generic failure explanation. -/
theorem c4_counterexample :
    c4PushRes.returncode ≠ 0 ∧
    containsB c4PushRes.stderr (str "src refspec") = true ∧
    c4ClaimedTag c4PushRes = str "push_nothing_to_push" ∧
    lastInfo (pushAttempt c4BranchRes c4PushRes) = some (str "push_generic_failure") ∧
    str "push_generic_failure" ≠ str "push_nothing_to_push" := by decide

/-- Claim C4 as amended: when the push fails, the explanation printed is
chosen by the fixed-order substring decision tree over the stderr returned
by `run_git` (the captured stderr stripped and with CRLF-warning lines
filtered out): "nothing to push" exactly when it contains `src refspec`;
otherwise "rejected" exactly when it contains `rejected`; otherwise the
authentication explanation exactly when it contains `Authentication` or
`fatal: could not read`; otherwise the generic failure explanation. -/
theorem c4_push_decision_tree_amended (branchRes res : ProcResult)
    (h : ¬ res.returncode = 0) :
    lastInfo (pushAttempt branchRes res) =
      some (pushFailureTag (filteredError res.stderr)) ∧
    (pushFailureTag (filteredError res.stderr) = str "push_nothing_to_push" ↔
       containsB (filteredError res.stderr) (str "src refspec") = true) ∧
    (pushFailureTag (filteredError res.stderr) = str "push_rejected" ↔
       (containsB (filteredError res.stderr) (str "src refspec") = false ∧
        containsB (filteredError res.stderr) (str "rejected") = true)) ∧
    (pushFailureTag (filteredError res.stderr) = str "push_auth" ↔
       (containsB (filteredError res.stderr) (str "src refspec") = false ∧
        containsB (filteredError res.stderr) (str "rejected") = false ∧
        (containsB (filteredError res.stderr) (str "Authentication") = true ∨
         containsB (filteredError res.stderr) (str "fatal: could not read") = true))) ∧
    (pushFailureTag (filteredError res.stderr) = str "push_generic_failure" ↔
       (containsB (filteredError res.stderr) (str "src refspec") = false ∧
        containsB (filteredError res.stderr) (str "rejected") = false ∧
        containsB (filteredError res.stderr) (str "Authentication") = false ∧
        containsB (filteredError res.stderr) (str "fatal: could not read") = false)) := by
  have hsucc : (run_git res).success = false := by
    show (res.returncode == 0) = false
    simpa using h
  have herr : (run_git res).error = filteredError res.stderr := rfl
  constructor
  · unfold pushAttempt
    rw [hsucc, herr]
    simp [lastInfo]
  · unfold pushFailureTag
    cases h1 : containsB (filteredError res.stderr) (str "src refspec") <;>
    cases h2 : containsB (filteredError res.stderr) (str "rejected") <;>
    cases h3 : containsB (filteredError res.stderr) (str "Authentication") <;>
    cases h4 : containsB (filteredError res.stderr) (str "fatal: could not read") <;>
      simp <;> decide

/-- Witness for the amended C4 at a failed push with an authentication
error in the relayed stderr. -/
def c4wPushRes : ProcResult := ⟨1, [], str "fatal: Authentication failed"⟩

theorem c4_push_decision_tree_amended_witness :
    lastInfo (pushAttempt c4BranchRes c4wPushRes) =
      some (pushFailureTag (filteredError c4wPushRes.stderr)) ∧
    pushFailureTag (filteredError c4wPushRes.stderr) = str "push_auth" :=
  ⟨(c4_push_decision_tree_amended c4BranchRes c4wPushRes (by decide)).1,
   ((c4_push_decision_tree_amended c4BranchRes c4wPushRes (by decide)).2.2.2.1).mpr
     ⟨by decide, by decide, Or.inl (by decide)⟩⟩

/- ==========  is_git_repo (lines 91-97) and get_repo_root (712-720) ========== -/

def is_git_repo (res : ProcResult) : Bool := res.returncode == 0

/-- The silent `git rev-parse --is-inside-work-tree` probe every workflow
starts with. -/
def isRepoCheck (res : ProcResult) : Event :=
  Event.gitCapture [str "rev-parse", str "--is-inside-work-tree"] res

def get_repo_root (res : ProcResult) : Option Str :=
  if res.returncode == 0 then some (pyStrip res.stdout) else none

/- ==========  workflow_init  (lines 104-236) ========== -/

/-- The guard list of lines 137-138. -/
def protectedDirs : List Str :=
  [str "\\windows", str "\\system32", str "\\program files",
   str "\\program files (x86)", str "\\appdata"]

/-- Environment of one `workflow_init` run: the user's path input, the
working directory at entry (`os.getcwd()`), the modelled `os.path.abspath`,
the answers of the `os.path.isdir`/`os.path.exists` queries the code
makes, the captured `git init` result and the two yes/no answers. -/
structure InitEnv where
  inputPath : Str
  cwd0 : Str
  abspath : Str → Str
  isDir : Bool
  createConfirm : Bool
  gitDirIsDir : Bool
  initRes : ProcResult
  gitignoreExists : Bool
  gitignoreConfirm : Bool

/-- Lines 129-134: the stripped input, defaulted to the current directory
when empty, made absolute. -/
def initTargetPath (env : InitEnv) : Str :=
  let p0 := pyStrip env.inputPath
  env.abspath (if p0 = [] then env.cwd0 else p0)

/-- Lines 159-236 of `workflow_init` (from the already-a-repo check on):
either point the tool at the existing repo, or `chdir` + `git init`,
returning to the original directory on failure and offering a
`.gitignore` on success. -/
def initFromRepoCheck (env : InitEnv) (path : Str) : List Event :=
  if env.gitDirIsDir then
    [Event.chdir path, Event.info (str "already_a_repo")]
  else
    Event.chdir path ::
    Event.git [str "init"] env.initRes ::
    (if env.initRes.returncode == 0 then
       (if env.gitignoreExists then []
        else
          Event.info (str "gitignore_offer") ::
          Event.promptYN (str "create_gitignore") env.gitignoreConfirm ::
          (if env.gitignoreConfirm then
             [Event.writeFile (pathJoin path (str ".gitignore")),
              Event.info (str "gitignore_created")]
           else [])) ++
       [Event.info (str "init_done")]
     else [Event.chdir env.cwd0, Event.info (str "init_failed")])

/-- `workflow_init` (lines 104-236) as an event trace. -/
def workflow_init (env : InitEnv) : List Event :=
  Event.info (str "init_intro") ::
  Event.waitEnter ::
  Event.info (str "init_path_prompt") ::
  Event.promptStr (str "init_path") env.inputPath ::
  (let path := initTargetPath env
   if protectedDirs.any (fun p => containsB (pyLower path) p) then
     [Event.info (str "system_folder_warning")]
   else if env.isDir then initFromRepoCheck env path
   else
     Event.promptYN (str "create_dir") env.createConfirm ::
     (if env.createConfirm then
        Event.makeDirs path :: Event.info (str "dir_created") :: initFromRepoCheck env path
      else [Event.info (str "init_cancelled")]))

/- ==========  workflow_status  (lines 243-295) ========== -/

structure StatusEnv where
  revParseRes : ProcResult
  statusRes : ProcResult
  porcelainRes : ProcResult

/-- `workflow_status` as an event trace, including the interpretation
booleans of lines 277-279 (untracked / modified / staged markers). -/
def workflow_status (env : StatusEnv) : List Event :=
  Event.info (str "status_intro") ::
  Event.waitEnter ::
  isRepoCheck env.revParseRes ::
  (if ¬ is_git_repo env.revParseRes = true then [Event.info (str "not_a_repo")]
   else
     Event.git [str "status"] env.statusRes ::
     (if (run_git env.statusRes).output = [] then []
      else
        Event.gitCapture [str "status", str "--porcelain"] env.porcelainRes ::
        (let statusLines := pyStrip env.porcelainRes.stdout
         if statusLines = [] then [Event.info (str "status_clean")]
         else
           Event.info (str "status_meaning_header") ::
           ((if (pySplitlines statusLines).any (fun line => startsWithB line (str "?")) then
               [Event.info (str "status_untracked_note")]
             else []) ++
            (if (pySplitlines statusLines).any (fun line =>
                  match line with
                  | _ :: c :: _ => c == 'M'
                  | _ => false) then
               [Event.info (str "status_modified_note")]
             else []) ++
            (if (pySplitlines statusLines).any (fun line =>
                  match line with
                  | c :: _ => c == 'M' || c == 'A' || c == 'D' || c == 'R' || c == 'C'
                  | _ => false) then
               [Event.info (str "status_staged_note")]
             else []) ++
            [Event.info (str "status_next_steps")]))))

/- ==========  workflow_stage_commit  (lines 302-421) ========== -/

/-- Environment of one `workflow_stage_commit` run.  `stageChoice` is the
menu number; the input loop of lines 356-363 guarantees it is 1, 2 or 3. -/
structure StageCommitEnv where
  revParseRes : ProcResult
  statusShort1 : ProcResult
  porcelainRes : ProcResult
  stageChoice : Nat
  fileInput : Str
  addRes : ProcResult
  statusShort2 : ProcResult
  messageInput : Str
  commitRes : ProcResult

/-- Lines 382-421: the commit half of `workflow_stage_commit`. -/
def commitPhase (env : StageCommitEnv) : List Event :=
  Event.waitEnter ::
  Event.info (str "commit_step_header") ::
  Event.git [str "status", str "--short"] env.statusShort2 ::
  Event.info (str "commit_message_help") ::
  Event.promptStr (str "commit_message") env.messageInput ::
  (if pyStrip env.messageInput = [] then [Event.info (str "no_message_cancelled")]
   else
     Event.info (str "creating_commit") ::
     Event.git [str "commit", str "-m", pyStrip env.messageInput] env.commitRes ::
     (if env.commitRes.returncode == 0 then [Event.info (str "commit_done")] else []))

/-- `workflow_stage_commit` (lines 302-421) as an event trace. -/
def workflow_stage_commit (env : StageCommitEnv) : List Event :=
  Event.info (str "stage_commit_intro") ::
  Event.waitEnter ::
  isRepoCheck env.revParseRes ::
  (if ¬ is_git_repo env.revParseRes = true then [Event.info (str "not_a_repo")]
   else
     Event.info (str "staging_step_header") ::
     Event.git [str "status", str "--short"] env.statusShort1 ::
     Event.gitCapture [str "status", str "--porcelain"] env.porcelainRes ::
     (if pyStrip env.porcelainRes.stdout = [] then [Event.info (str "nothing_to_commit")]
      else
        Event.info (str "staging_choices") ::
        Event.promptNum (str "stage_choice") env.stageChoice ::
        (if env.stageChoice = 3 then [Event.info (str "stage_cancelled")]
         else if env.stageChoice = 1 then
           Event.info (str "staging_all") ::
           Event.git [str "add", str "."] env.addRes ::
           commitPhase env
         else
           Event.promptStr (str "stage_file") env.fileInput ::
           (if pyStrip env.fileInput = [] then [Event.info (str "no_file_cancelled")]
            else
              Event.info (str "staging_file") ::
              Event.git [str "add", pyStrip env.fileInput] env.addRes ::
              commitPhase env))))

/- ==========  workflow_readme  (lines 723-809) ========== -/

/-- Environment of one `workflow_readme` run: the repo-root probe and the
eight section answers.  The README text assembled from the answers is
presentation (excluded by the spec); only the write to
`<repo_root>/README.md` is recorded. -/
structure ReadmeEnv where
  revParseRes : ProcResult
  projectName : Str
  tagline : Str
  problem : Str
  solution : Str
  howItWorks : Str
  resultsAns : Str
  tech : Str
  statusAns : Str
  writeConfirm : Bool

/-- `workflow_readme` (lines 723-809) as an event trace. -/
def workflow_readme (env : ReadmeEnv) : List Event :=
  Event.info (str "readme_intro") ::
  Event.waitEnter ::
  Event.gitCapture [str "rev-parse", str "--show-toplevel"] env.revParseRes ::
  (match get_repo_root env.revParseRes with
   | none => [Event.info (str "readme_not_a_repo")]
   | some root =>
     Event.info (str "readme_prompts_header") ::
     Event.promptStr (str "project_name") env.projectName ::
     Event.promptStr (str "tagline") env.tagline ::
     Event.promptStr (str "problem") env.problem ::
     Event.promptStr (str "solution") env.solution ::
     Event.promptStr (str "how_it_works") env.howItWorks ::
     Event.promptStr (str "results") env.resultsAns ::
     Event.promptStr (str "tech_stack") env.tech ::
     Event.promptStr (str "status_line") env.statusAns ::
     Event.info (str "readme_preview") ::
     Event.promptYN (str "write_readme") env.writeConfirm ::
     (if env.writeConfirm then
        [Event.writeFile (pathJoin root (str "README.md")),
         Event.info (str "readme_created")]
      else [Event.info (str "readme_cancelled")]))

/- ==========  workflow_push  (lines 428-630) ========== -/

/-- Environment of one `workflow_push` run.  `acctChoice` is validated to
1, 2 or 3 by the input loop of lines 459-466. -/
structure PushEnv where
  revParseRes : ProcResult
  acctChoice : Nat
  remoteVRes : ProcResult
  urlInput : Str
  remoteAddRes : ProcResult
  branchRes : ProcResult
  pushRes : ProcResult

/-- `workflow_push` (lines 428-630) as an event trace, ending in
`pushAttempt` on every path that reaches the push. -/
def workflow_push (env : PushEnv) : List Event :=
  Event.info (str "push_intro") ::
  Event.waitEnter ::
  isRepoCheck env.revParseRes ::
  (if ¬ is_git_repo env.revParseRes = true then [Event.info (str "not_a_repo")]
   else
     Event.info (str "github_account_question") ::
     Event.promptNum (str "acct_choice") env.acctChoice ::
     (if env.acctChoice = 3 then [Event.info (str "push_cancelled")]
      else
        (if env.acctChoice = 2 then
           [Event.info (str "github_signup_help"), Event.waitEnter]
         else []) ++
        Event.gitCapture [str "remote", str "-v"] env.remoteVRes ::
        (if pyStrip env.remoteVRes.stdout = [] then
           Event.info (str "connect_remote_help") ::
           Event.promptStr (str "remote_url") env.urlInput ::
           (if pyStrip env.urlInput = [] then [Event.info (str "push_url_cancelled")]
            else
              Event.waitEnter ::
              Event.info (str "linking_remote") ::
              Event.git [str "remote", str "add", str "origin", pyStrip env.urlInput]
                env.remoteAddRes ::
              (if env.remoteAddRes.returncode == 0 then
                 pushAttempt env.branchRes env.pushRes
               else [Event.info (str "remote_add_failed")]))
         else
           Event.info (str "remote_already_connected") ::
           pushAttempt env.branchRes env.pushRes)))

/- ==========  workflow_log  (lines 637-668) ========== -/

structure LogEnv where
  revParseRes : ProcResult
  logCheckRes : ProcResult
  logRes : ProcResult

/-- `workflow_log` (lines 637-668) as an event trace. -/
def workflow_log (env : LogEnv) : List Event :=
  Event.info (str "log_intro") ::
  Event.waitEnter ::
  isRepoCheck env.revParseRes ::
  (if ¬ is_git_repo env.revParseRes = true then [Event.info (str "not_a_repo")]
   else
     Event.gitCapture [str "log", str "--oneline", str "-1"] env.logCheckRes ::
     (if ¬ env.logCheckRes.returncode = 0 then [Event.info (str "no_commits_yet")]
      else
        [Event.info (str "showing_recent_commits"),
         Event.git [str "log", str "--oneline", str "--graph", str "-10"] env.logRes]))

/- ==========  workflow_clone  (lines 675-705) ========== -/

structure CloneEnv where
  urlInput : Str
  destInput : Str
  cloneRes : ProcResult

/-- `workflow_clone` (lines 675-705) as an event trace. -/
def workflow_clone (env : CloneEnv) : List Event :=
  Event.info (str "clone_intro") ::
  Event.waitEnter ::
  Event.promptStr (str "clone_url") env.urlInput ::
  (if pyStrip env.urlInput = [] then [Event.info (str "clone_no_url_cancelled")]
   else
     Event.promptStr (str "clone_dest") env.destInput ::
     (if ¬ pyStrip env.destInput = [] then
        [Event.info (str "cloning_into"),
         Event.git [str "clone", pyStrip env.urlInput, pyStrip env.destInput] env.cloneRes]
      else
        [Event.info (str "cloning"),
         Event.git [str "clone", pyStrip env.urlInput] env.cloneRes]) ++
     [Event.info (str "clone_done_note")])

/- ==========  workflow_branch  (lines 815-963) ========== -/

/-- Environment of one `workflow_branch` run.  `choice` is validated to
1..4 by the input loop of lines 859-866. -/
structure BranchEnv where
  revParseRes : ProcResult
  logCheckRes : ProcResult
  choice : Nat
  branchListRes : ProcResult
  switchName : Str
  checkoutRes : ProcResult
  newName : Str
  checkoutBRes : ProcResult

/-- `workflow_branch` (lines 815-963) as an event trace. -/
def workflow_branch (env : BranchEnv) : List Event :=
  Event.info (str "branch_intro") ::
  Event.waitEnter ::
  isRepoCheck env.revParseRes ::
  (if ¬ is_git_repo env.revParseRes = true then [Event.info (str "not_a_repo")]
   else
     Event.gitCapture [str "log", str "--oneline", str "-1"] env.logCheckRes ::
     (if ¬ env.logCheckRes.returncode = 0 then [Event.info (str "branch_needs_commit")]
      else
        Event.promptNum (str "branch_choice") env.choice ::
        (if env.choice = 4 then [Event.info (str "branch_menu_cancelled")]
         else if env.choice = 3 then
           [Event.info (str "listing_branches"),
            Event.git [str "branch"] env.branchListRes]
         else if env.choice = 2 then
           Event.info (str "current_branches") ::
           Event.git [str "branch"] env.branchListRes ::
           Event.promptStr (str "switch_branch_name") env.switchName ::
           (if pyStrip env.switchName = [] then [Event.info (str "switch_cancelled")]
            else
              Event.info (str "switching_branch") ::
              Event.git [str "checkout", pyStrip env.switchName] env.checkoutRes ::
              (if env.checkoutRes.returncode == 0 then [Event.info (str "now_on_branch")]
               else if containsB (run_git env.checkoutRes).error (str "did not match") then
                 [Event.info (str "branch_not_found")]
               else []))
         else
           Event.info (str "branch_naming_help") ::
           Event.promptStr (str "new_branch_name") env.newName ::
           (if pyStrip env.newName = [] then [Event.info (str "branch_name_cancelled")]
            else if containsB (pyStrip env.newName) (str " ") then
              [Event.info (str "branch_name_spaces")]
            else
              Event.info (str "creating_branch") ::
              Event.git [str "checkout", str "-b", pyStrip env.newName] env.checkoutBRes ::
              (if env.checkoutBRes.returncode == 0 then [Event.info (str "branch_created")]
               else [])))))

/- ==========  workflow_merge  (lines 970-1107) ========== -/

/-- Environment of one `workflow_merge` run.  `mergeChoice` is validated
to `1..len(other_branches)` by the input loop of lines 1064-1071; an
out-of-range index is modelled by `getD` (it cannot occur). -/
structure MergeEnv where
  revParseRes : ProcResult
  showCurrentRes : ProcResult
  branchDisplayRes : ProcResult
  allBranchesRes : ProcResult
  targetInput : Str
  switchRes : ProcResult
  mergeChoice : Nat
  tail : MergeTailEnv

/-- Line 1019: `[b.strip().lstrip("* ") for b in all.stdout.strip().splitlines()]`. -/
def mergeBranchList (allStdout : Str) : List Str :=
  (pySplitlines (pyStrip allStdout)).map
    (fun b => (pyStrip b).dropWhile (fun c => c == '*' || c == ' '))

/-- Lines 1047-1107: pick the branch to merge and run the attempt. -/
def mergePick (env : MergeEnv) (branchList : List Str) (cb : Str) : List Event :=
  Event.waitEnter ::
  Event.info (str "merge_step2_pick") ::
  Event.promptNum (str "merge_branch_choice") env.mergeChoice ::
  (let others := branchList.filter (fun b => ¬ b = cb)
   mergeAttempt (others.getD (env.mergeChoice - 1) []) cb env.tail)

/-- `workflow_merge` (lines 970-1107) as an event trace. -/
def workflow_merge (env : MergeEnv) : List Event :=
  Event.info (str "merge_intro") ::
  Event.waitEnter ::
  isRepoCheck env.revParseRes ::
  (if ¬ is_git_repo env.revParseRes = true then [Event.info (str "not_a_repo")]
   else
     Event.gitCapture [str "branch", str "--show-current"] env.showCurrentRes ::
     Event.info (str "current_branch_display") ::
     Event.git [str "branch"] env.branchDisplayRes ::
     Event.gitCapture [str "branch"] env.allBranchesRes ::
     (let branchList := mergeBranchList env.allBranchesRes.stdout
      if branchList.length < 2 then [Event.info (str "only_one_branch")]
      else
        Event.info (str "merge_step1_switch") ::
        Event.promptStr (str "merge_target") env.targetInput ::
        (let cb0 := pyStrip env.showCurrentRes.stdout
         let target := pyStrip env.targetInput
         if ¬ target = [] ∧ ¬ target = cb0 then
           Event.info (str "switching_to_target") ::
           Event.git [str "checkout", target] env.switchRes ::
           (if ¬ env.switchRes.returncode = 0 then [Event.info (str "switch_failed")]
            else mergePick env branchList target)
         else mergePick env branchList cb0)))

/- ==========  the nine menu workflows together ========== -/

/-- One workflow invocation with its environment (the nine entries of
`MENU_OPTIONS`, lines 1230-1276). -/
inductive Workflow where
  | init (env : InitEnv)
  | status (env : StatusEnv)
  | stageCommit (env : StageCommitEnv)
  | readme (env : ReadmeEnv)
  | push (env : PushEnv)
  | log (env : LogEnv)
  | clone (env : CloneEnv)
  | branch (env : BranchEnv)
  | merge (env : MergeEnv)

def runWorkflow : Workflow → List Event
  | Workflow.init env => workflow_init env
  | Workflow.status env => workflow_status env
  | Workflow.stageCommit env => workflow_stage_commit env
  | Workflow.readme env => workflow_readme env
  | Workflow.push env => workflow_push env
  | Workflow.log env => workflow_log env
  | Workflow.clone env => workflow_clone env
  | Workflow.branch env => workflow_branch env
  | Workflow.merge env => workflow_merge env

/- ==================  claim C6: file-system effects  ================== -/

/-- "This event is not a direct file-system modification." -/
def noFsE (e : Event) : Bool := !(modifiesFsDirectly e)

theorem all_cons_of {p : Event → Bool} {e : Event} {l : List Event}
    (h1 : p e = true) (h2 : l.all p = true) : (e :: l).all p = true := by
  simp [List.all_cons, h1, h2]

theorem all_append_of {p : Event → Bool} {l1 l2 : List Event}
    (h1 : l1.all p = true) (h2 : l2.all p = true) : (l1 ++ l2).all p = true := by
  simp [List.all_append, h1, h2]

theorem all_ite_of {p : Event → Bool} {c : Prop} [Decidable c] {l1 l2 : List Event}
    (h1 : l1.all p = true) (h2 : l2.all p = true) : (if c then l1 else l2).all p = true := by
  split <;> assumption

theorem all_nil_ev (p : Event → Bool) : ([] : List Event).all p = true := rfl

theorem handle_noFs (mb cb : Str) (env : ConflictEnv) :
    (handle_merge_conflict mb cb env).all noFsE = true := by
  simp only [handle_merge_conflict]
  repeat first
    | apply all_ite_of
    | apply all_append_of
    | apply all_cons_of rfl
    | exact all_nil_ev _

theorem mergeAttempt_noFs (mb cb : Str) (env : MergeTailEnv) :
    (mergeAttempt mb cb env).all noFsE = true := by
  simp only [mergeAttempt]
  repeat first
    | exact handle_noFs mb cb env.conflict
    | apply all_ite_of
    | apply all_append_of
    | apply all_cons_of rfl
    | exact all_nil_ev _

theorem pushAttempt_noFs (branchRes pushRes : ProcResult) :
    (pushAttempt branchRes pushRes).all noFsE = true := by
  simp only [pushAttempt]
  repeat first
    | apply all_ite_of
    | apply all_append_of
    | apply all_cons_of rfl
    | exact all_nil_ev _

theorem mergePick_noFs (env : MergeEnv) (branchList : List Str) (cb : Str) :
    (mergePick env branchList cb).all noFsE = true := by
  simp only [mergePick]
  repeat first
    | exact mergeAttempt_noFs _ _ _
    | apply all_cons_of rfl

theorem merge_noFs (env : MergeEnv) :
    (workflow_merge env).all noFsE = true := by
  simp only [workflow_merge, isRepoCheck]
  repeat first
    | exact mergePick_noFs _ _ _
    | apply all_ite_of
    | apply all_append_of
    | apply all_cons_of rfl
    | exact all_nil_ev _

theorem push_noFs (env : PushEnv) :
    (workflow_push env).all noFsE = true := by
  simp only [workflow_push, isRepoCheck]
  repeat first
    | exact pushAttempt_noFs _ _
    | apply all_ite_of
    | apply all_append_of
    | apply all_cons_of rfl
    | exact all_nil_ev _

theorem commitPhase_noFs (env : StageCommitEnv) :
    (commitPhase env).all noFsE = true := by
  simp only [commitPhase]
  repeat first
    | apply all_ite_of
    | apply all_append_of
    | apply all_cons_of rfl
    | exact all_nil_ev _

theorem stageCommit_noFs (env : StageCommitEnv) :
    (workflow_stage_commit env).all noFsE = true := by
  simp only [workflow_stage_commit, isRepoCheck]
  repeat first
    | exact commitPhase_noFs _
    | apply all_ite_of
    | apply all_append_of
    | apply all_cons_of rfl
    | exact all_nil_ev _

theorem status_noFs (env : StatusEnv) :
    (workflow_status env).all noFsE = true := by
  simp only [workflow_status, isRepoCheck]
  repeat first
    | apply all_ite_of
    | apply all_append_of
    | apply all_cons_of rfl
    | exact all_nil_ev _

theorem log_noFs (env : LogEnv) :
    (workflow_log env).all noFsE = true := by
  simp only [workflow_log, isRepoCheck]
  repeat first
    | apply all_ite_of
    | apply all_append_of
    | apply all_cons_of rfl
    | exact all_nil_ev _

theorem clone_noFs (env : CloneEnv) :
    (workflow_clone env).all noFsE = true := by
  simp only [workflow_clone]
  repeat first
    | apply all_ite_of
    | apply all_append_of
    | apply all_cons_of rfl
    | exact all_nil_ev _

theorem branch_noFs (env : BranchEnv) :
    (workflow_branch env).all noFsE = true := by
  simp only [workflow_branch, isRepoCheck]
  repeat first
    | apply all_ite_of
    | apply all_append_of
    | apply all_cons_of rfl
    | exact all_nil_ev _

/-- The only direct file-system effects `workflow_init` may perform:
creating the target directory and writing `.gitignore` inside it. -/
def initWriteOk (env : InitEnv) (e : Event) : Bool :=
  match e with
  | Event.writeFile p => p == pathJoin (initTargetPath env) (str ".gitignore")
  | Event.makeDirs p => p == initTargetPath env
  | _ => true

theorem init_writes (env : InitEnv) :
    (workflow_init env).all (initWriteOk env) = true := by
  simp only [workflow_init, initFromRepoCheck]
  repeat first
    | apply all_ite_of
    | apply all_append_of
    | apply all_cons_of (by simp [initWriteOk])
    | exact all_nil_ev _

/-- The only direct file-system effect `workflow_readme` may perform:
writing `README.md` at the repo root. -/
def readmeWriteOk (env : ReadmeEnv) (e : Event) : Bool :=
  match e with
  | Event.writeFile p =>
      (get_repo_root env.revParseRes).elim false
        (fun root => p == pathJoin root (str "README.md"))
  | Event.makeDirs _ => false
  | _ => true

theorem readme_writes (env : ReadmeEnv) :
    (workflow_readme env).all (readmeWriteOk env) = true := by
  simp only [workflow_readme]
  cases hrr : get_repo_root env.revParseRes <;>
    simp only [hrr] <;>
    repeat first
      | apply all_ite_of
      | apply all_append_of
      | apply all_cons_of (by simp [readmeWriteOk, hrr])
      | exact all_nil_ev _

/-- A `workflow_readme` run inside a repo rooted at `/repo` where the user
confirms the write. -/
def c6Env : ReadmeEnv :=
  ⟨⟨0, str "/repo", []⟩, str "P", str "T", [], [], [], [], [], [], true⟩

/-- Claim C6, counterexample: `workflow_readme` writes `README.md` with a
direct `open(...).write`, a file-system modification that is not a git
subprocess invocation. -/
theorem c6_counterexample :
    Event.writeFile (pathJoin (str "/repo") (str "README.md")) ∈
      runWorkflow (Workflow.readme c6Env) ∧
    isGitCall (Event.writeFile (pathJoin (str "/repo") (str "README.md"))) = false ∧
    modifiesFsDirectly (Event.writeFile (pathJoin (str "/repo") (str "README.md"))) = true := by
  decide

/-- Claim C6 as amended: across all nine workflows, every direct
file-system modification is one of: `workflow_init`'s creation of the
target directory, a write to a file named `.gitignore`
(`workflow_init`), or a write to a file named `README.md`
(`workflow_readme`); every other state change goes through a git
subprocess invocation. -/
theorem c6_fs_effects_amended (w : Workflow) :
    ∀ e ∈ runWorkflow w,
      modifiesFsDirectly e = true →
        ((∃ p, e = Event.writeFile p ∧
            ((∃ u, p = u ++ str ".gitignore") ∨ (∃ u, p = u ++ str "README.md"))) ∨
         (∃ p, e = Event.makeDirs p ∧ ∃ env, w = Workflow.init env)) := by
  cases w with
  | init env =>
    intro e he hm
    have hp := List.all_eq_true.mp (init_writes env) e he
    cases e with
    | writeFile p =>
      left
      refine ⟨p, rfl, Or.inl ?_⟩
      have hq : p = pathJoin (initTargetPath env) (str ".gitignore") := by
        have hb : (p == pathJoin (initTargetPath env) (str ".gitignore")) = true := hp
        exact eq_of_beq hb
      exact ⟨initTargetPath env ++ ['/'], by simp [hq, pathJoin]⟩
    | makeDirs p => exact Or.inr ⟨p, rfl, env, rfl⟩
    | git a r => simp [modifiesFsDirectly] at hm
    | gitCapture a r => simp [modifiesFsDirectly] at hm
    | info t => simp [modifiesFsDirectly] at hm
    | waitEnter => simp [modifiesFsDirectly] at hm
    | promptStr t v => simp [modifiesFsDirectly] at hm
    | promptYN t a => simp [modifiesFsDirectly] at hm
    | promptNum t c => simp [modifiesFsDirectly] at hm
    | chdir p => simp [modifiesFsDirectly] at hm
  | readme env =>
    intro e he hm
    have hp := List.all_eq_true.mp (readme_writes env) e he
    cases e with
    | writeFile p =>
      left
      refine ⟨p, rfl, Or.inr ?_⟩
      simp only [readmeWriteOk] at hp
      cases hrr : get_repo_root env.revParseRes with
      | none => rw [hrr] at hp; simp at hp
      | some root =>
        rw [hrr] at hp
        simp only [Option.elim] at hp
        have hq : p = pathJoin root (str "README.md") := eq_of_beq hp
        exact ⟨root ++ ['/'], by simp [hq, pathJoin]⟩
    | makeDirs p => simp [readmeWriteOk] at hp
    | git a r => simp [modifiesFsDirectly] at hm
    | gitCapture a r => simp [modifiesFsDirectly] at hm
    | info t => simp [modifiesFsDirectly] at hm
    | waitEnter => simp [modifiesFsDirectly] at hm
    | promptStr t v => simp [modifiesFsDirectly] at hm
    | promptYN t a => simp [modifiesFsDirectly] at hm
    | promptNum t c => simp [modifiesFsDirectly] at hm
    | chdir p => simp [modifiesFsDirectly] at hm
  | status env =>
    intro e he hm
    have hp := List.all_eq_true.mp (status_noFs env) e he
    have hf : modifiesFsDirectly e = false := by simpa [noFsE] using hp
    rw [hm] at hf
    exact absurd hf (by decide)
  | stageCommit env =>
    intro e he hm
    have hp := List.all_eq_true.mp (stageCommit_noFs env) e he
    have hf : modifiesFsDirectly e = false := by simpa [noFsE] using hp
    rw [hm] at hf
    exact absurd hf (by decide)
  | push env =>
    intro e he hm
    have hp := List.all_eq_true.mp (push_noFs env) e he
    have hf : modifiesFsDirectly e = false := by simpa [noFsE] using hp
    rw [hm] at hf
    exact absurd hf (by decide)
  | log env =>
    intro e he hm
    have hp := List.all_eq_true.mp (log_noFs env) e he
    have hf : modifiesFsDirectly e = false := by simpa [noFsE] using hp
    rw [hm] at hf
    exact absurd hf (by decide)
  | clone env =>
    intro e he hm
    have hp := List.all_eq_true.mp (clone_noFs env) e he
    have hf : modifiesFsDirectly e = false := by simpa [noFsE] using hp
    rw [hm] at hf
    exact absurd hf (by decide)
  | branch env =>
    intro e he hm
    have hp := List.all_eq_true.mp (branch_noFs env) e he
    have hf : modifiesFsDirectly e = false := by simpa [noFsE] using hp
    rw [hm] at hf
    exact absurd hf (by decide)
  | merge env =>
    intro e he hm
    have hp := List.all_eq_true.mp (merge_noFs env) e he
    have hf : modifiesFsDirectly e = false := by simpa [noFsE] using hp
    rw [hm] at hf
    exact absurd hf (by decide)

/-- Witness for the amended C6 at the `.gitignore` write of a concrete
`workflow_init` run. -/
def c6wEnv : InitEnv :=
  ⟨str "/proj", str "/home", fun s => s, true, false, false, ⟨0, [], []⟩, false, true⟩

theorem c6_fs_effects_amended_witness :
    Event.writeFile (pathJoin (str "/proj") (str ".gitignore")) ∈
      runWorkflow (Workflow.init c6wEnv) ∧
    ((∃ p, Event.writeFile (pathJoin (str "/proj") (str ".gitignore")) = Event.writeFile p ∧
        ((∃ u, p = u ++ str ".gitignore") ∨ (∃ u, p = u ++ str "README.md"))) ∨
     (∃ p, Event.writeFile (pathJoin (str "/proj") (str ".gitignore")) = Event.makeDirs p ∧
        ∃ env, Workflow.init c6wEnv = Workflow.init env)) :=
  ⟨by decide,
   c6_fs_effects_amended (Workflow.init c6wEnv)
     (Event.writeFile (pathJoin (str "/proj") (str ".gitignore"))) (by decide) (by decide)⟩

/- ==================  claims C7, C8  ================== -/

/-- Claim C7: whenever the absolute lowercased target path contains one of
the protected system-directory substrings, `workflow_init` prints the
system-folder warning and returns without creating a directory, changing
the working directory, writing a file, or invoking git. -/
theorem c7_system_folder_guard (env : InitEnv)
    (h : protectedDirs.any (fun p => containsB (pyLower (initTargetPath env)) p) = true) :
    Event.info (str "system_folder_warning") ∈ workflow_init env ∧
    ∀ e ∈ workflow_init env,
      modifiesFsDirectly e = false ∧ isChdir e = false ∧ isGitCall e = false := by
  have htrace : workflow_init env =
      [Event.info (str "init_intro"), Event.waitEnter,
       Event.info (str "init_path_prompt"),
       Event.promptStr (str "init_path") env.inputPath,
       Event.info (str "system_folder_warning")] := by
    simp only [workflow_init]
    rw [h]
    simp
  rw [htrace]
  constructor
  · simp
  · intro e he
    simp only [List.mem_cons, List.not_mem_nil, or_false] at he
    rcases he with rfl | rfl | rfl | rfl | rfl <;> exact ⟨rfl, rfl, rfl⟩

/-- A concrete run pointing `workflow_init` at `C:\Windows\System32`. -/
def c7Env : InitEnv :=
  ⟨str "C:\\Windows\\System32", str "C:\\", fun s => s, true, false, false,
   ⟨0, [], []⟩, true, false⟩

theorem c7_system_folder_guard_witness :
    protectedDirs.any (fun p => containsB (pyLower (initTargetPath c7Env)) p) = true ∧
    Event.info (str "system_folder_warning") ∈ workflow_init c7Env :=
  ⟨by decide, (c7_system_folder_guard c7Env (by decide)).1⟩

/-- The system-folder guard condition of lines 136-140. -/
def guardTriggered (env : InitEnv) : Bool :=
  protectedDirs.any (fun p => containsB (pyLower (initTargetPath env)) p)

theorem finalCwd_append (start : Str) (a b : List Event) :
    finalCwd start (a ++ b) = finalCwd (finalCwd start a) b := by
  induction a generalizing start with
  | nil => rfl
  | cons e r ih =>
    cases e <;> simp [finalCwd, ih]

/-- Claim C8: on the path that actually invokes `git init` (guard not
triggered, the directory exists or is created, not already a repo), the
process ends in the target directory when the init succeeds and back in
the original working directory when it fails. -/
theorem c8_cwd_restore (env : InitEnv)
    (h1 : guardTriggered env = false)
    (h2 : env.isDir = true ∨ env.createConfirm = true)
    (h3 : env.gitDirIsDir = false) :
    finalCwd env.cwd0 (workflow_init env) =
      (if env.initRes.returncode == 0 then initTargetPath env else env.cwd0) := by
  have hguard := h1
  unfold guardTriggered at hguard
  cases hd : env.isDir <;> cases hc : env.createConfirm
  · rcases h2 with h2 | h2
    · rw [hd] at h2; exact absurd h2 (by decide)
    · rw [hc] at h2; exact absurd h2 (by decide)
  all_goals
    cases hin : env.initRes.returncode == 0 <;>
    cases hgi : env.gitignoreExists <;>
    cases hgc : env.gitignoreConfirm <;>
    simp [workflow_init, initFromRepoCheck, hguard, hd, hc, h3, hin, hgi, hgc,
      finalCwd, finalCwd_append]

/-- Witness for C8 at a failed `git init` in an existing directory. -/
def c8Env : InitEnv :=
  ⟨str "/proj", str "/home", fun s => s, true, false, false,
   ⟨1, [], str "permission denied"⟩, true, false⟩

theorem c8_cwd_restore_witness :
    finalCwd c8Env.cwd0 (workflow_init c8Env) =
      (if c8Env.initRes.returncode == 0 then initTargetPath c8Env else c8Env.cwd0) :=
  c8_cwd_restore c8Env (by decide) (Or.inl (by decide)) (by decide)
